import Mathlib

set_option linter.unusedVariables false

/-!
Verification of the swaybar status program against its specification.

The development shallowly embeds the program's core logic:
* the resource-set synchronizer used by the bus-backed sources
  (`src/source/dbus/bluez.rs` and `src/source/dbus/upower.rs`, function `statuses`),
* the per-source snapshot construction and its ordering,
* the single-slot error channel (`ErrorSender::force_send` over `async_channel::bounded(1)`),
* the error-display dwell stream (`error` in `src/source/main.rs`),
* and the stream-supervisor event loop of `main` in `src/source/main.rs`
  (snapshot store mutation, publish, quarantine and rebuild).

Bus object paths are modelled as `String`.  Errors (`BlockUpdateError`) are modelled as
opaque strings.  Rust `f64` values that only flow through comparisons and bar rendering are
modelled as `ℚ`.  External effects (the D-Bus connection, stdin, subprocesses) appear as
inputs to the transition functions; the property reads of one snapshot pass appear as one
valuation per pass, mirroring the code's re-read-per-pass policy.
-/

/-! ## Resource Set Synchronizer

`statuses` in `src/source/dbus/bluez.rs` (lines 103-149) and `src/source/dbus/upower.rs`
(lines 55-101) keeps a map `devices` of tracked object paths.  On every membership pass it
enumerates the current paths, then
* for every previously tracked path not enumerated any more it removes the map entry and
  its property subscription,
* for every enumerated path not yet tracked it builds a proxy, applies the admission filter
  (`paired` for BlueZ, `is_present` for UPower) and, if admitted, inserts the entry and a
  fresh property subscription.

`syncPass adm tracked paths` is that pass: the first loop erases every element of
`tracked \ paths` from the map, leaving `tracked \ (tracked \ paths)`; the second loop
inserts every element of `paths \ tracked` that passes the admission filter.  `adm` is
the admission verdict delivered by the bus for a path when the pass queries it. -/
def syncPass (adm : String → Bool) (tracked paths : Finset String) : Finset String :=
  (tracked \ (tracked \ paths)) ∪ (paths \ tracked).filter (fun p => adm p = true)

/-- Paths dropped from the tracked map by a pass (the first `for` loop's removals). -/
def syncRemoved (tracked paths : Finset String) : Finset String :=
  tracked \ paths

/-- Paths for which a pass creates a fresh map entry and property subscription
(the second `for` loop's insertions, i.e. the admitted new paths). -/
def syncSubscribed (adm : String → Bool) (tracked paths : Finset String) : Finset String :=
  (paths \ tracked).filter (fun p => adm p = true)

/-- A run of membership passes starting from the empty map (`devices = HashMap::new()`),
one enumeration result per pass, with a fixed admission verdict per path. -/
def syncRun (adm : String → Bool) (es : List (Finset String)) : Finset String :=
  es.foldl (syncPass adm) ∅

/-- A run of membership passes in which every pass carries its own admission valuation
(the admission property of a path may change between passes). -/
def syncRunV (tracked : Finset String) : List ((String → Bool) × Finset String) → Finset String
  | [] => tracked
  | pass :: rest => syncRunV (syncPass pass.1 tracked pass.2) rest

theorem syncPass_eq (adm : String → Bool) (tracked paths : Finset String) :
    syncPass adm tracked paths
      = (tracked ∩ paths) ∪ (paths \ tracked).filter (fun p => adm p = true) := by
  unfold syncPass
  rw [Finset.sdiff_sdiff_self_left]

theorem mem_syncPass {adm : String → Bool} {tracked paths : Finset String} {p : String} :
    p ∈ syncPass adm tracked paths ↔ p ∈ paths ∧ (p ∈ tracked ∨ adm p = true) := by
  rw [syncPass_eq]
  simp only [Finset.mem_union, Finset.mem_inter, Finset.mem_filter, Finset.mem_sdiff]
  tauto

theorem syncPass_admitted_sub (adm : String → Bool) {tracked paths : Finset String}
    (h : ∀ p ∈ tracked, adm p = true) :
    ∀ p ∈ syncPass adm tracked paths, adm p = true := by
  intro p hp
  rcases mem_syncPass.mp hp with ⟨_, ht | ha⟩
  · exact h p ht
  · exact ha

theorem syncPass_eq_filter (adm : String → Bool) {tracked paths : Finset String}
    (h : ∀ p ∈ tracked, adm p = true) :
    syncPass adm tracked paths = paths.filter (fun p => adm p = true) := by
  ext p
  rw [mem_syncPass, Finset.mem_filter]
  constructor
  · rintro ⟨he, ht | ha⟩
    · exact ⟨he, h p ht⟩
    · exact ⟨he, ha⟩
  · rintro ⟨he, ha⟩
    exact ⟨he, Or.inr ha⟩

theorem foldl_syncPass_admitted (adm : String → Bool) :
    ∀ (es : List (Finset String)) (t : Finset String), (∀ p ∈ t, adm p = true) →
      ∀ p ∈ es.foldl (syncPass adm) t, adm p = true := by
  intro es
  induction es with
  | nil => intro t h; simpa using h
  | cons e es ih =>
    intro t h
    exact ih _ (syncPass_admitted_sub adm h)

/-- C1: for every sequence of enumeration results fed to the membership resynchronization
passes of a bus-backed source, the tracked map after the last pass is exactly the admitted
subset of the latest enumeration result: no path absent from the latest enumeration remains
tracked, and every admitted enumerated path is tracked.  Membership-change notifications
only decide when a pass runs, so a run is the list of enumeration results the passes
consume; the admission verdict of a path is held fixed across the run (the varying case is
settled separately with `syncRunV`). -/
theorem sync_resync_tracks_admitted (adm : String → Bool) (es : List (Finset String))
    (e : Finset String) :
    syncRun adm (es ++ [e]) = e.filter (fun p => adm p = true) := by
  unfold syncRun
  rw [List.foldl_append]
  simp only [List.foldl_cons, List.foldl_nil]
  exact syncPass_eq_filter adm (foldl_syncPass_admitted adm es ∅ (by simp))

/-- C6: if two consecutive membership enumerations return the same result set, the second
pass removes nothing from the tracked map, creates no new property subscription, and leaves
the tracked map unchanged (idempotence). -/
theorem sync_idempotent (adm : String → Bool) (tracked paths : Finset String) :
    syncPass adm (syncPass adm tracked paths) paths = syncPass adm tracked paths ∧
    syncRemoved (syncPass adm tracked paths) paths = ∅ ∧
    syncSubscribed adm (syncPass adm tracked paths) paths = ∅ := by
  have hsub : ∀ p ∈ syncPass adm tracked paths, p ∈ paths := by
    intro p hp
    exact (mem_syncPass.mp hp).1
  have hsubscribed : syncSubscribed adm (syncPass adm tracked paths) paths = ∅ := by
    rw [Finset.eq_empty_iff_forall_not_mem]
    intro p hp
    rcases Finset.mem_filter.mp hp with ⟨hpd, ha⟩
    rcases Finset.mem_sdiff.mp hpd with ⟨hpe, hnt⟩
    exact hnt (mem_syncPass.mpr ⟨hpe, Or.inr ha⟩)
  have hremoved : syncRemoved (syncPass adm tracked paths) paths = ∅ := by
    rw [Finset.eq_empty_iff_forall_not_mem]
    intro p hp
    rcases Finset.mem_sdiff.mp hp with ⟨hpt, hpe⟩
    exact hpe (hsub p hpt)
  refine ⟨?_, hremoved, hsubscribed⟩
  rw [syncPass_eq]
  have : (paths \ syncPass adm tracked paths).filter (fun p => adm p = true) = ∅ :=
    hsubscribed
  rw [this, Finset.union_empty, Finset.inter_eq_left.mpr hsub]

/-! ## Snapshots of the bus-backed sources

Within the inner loop of `statuses`, one snapshot pass re-reads every tracked device's
properties (one bus round-trip per property, no caching of signal payloads).  A pass is
modelled by one valuation per property (`nameOf`, `connectedOf`, `modelOf`,
`percentageOf`): all values of a snapshot come from that single per-pass valuation.
`order` is the iteration order of `devices.values()`, a `HashMap` whose order is
unspecified. -/

/-- `DeviceStatus` of `src/source/dbus/bluez.rs`. -/
structure DeviceStatus where
  name : String
  connected : Bool
  path : String
deriving DecidableEq

/-- `Status` of `src/source/dbus/bluez.rs`. -/
structure BluezStatus where
  powered : Bool
  devices : List DeviceStatus
deriving DecidableEq

/-- The device list of one BlueZ snapshot (`src/source/dbus/bluez.rs` lines 151-163):
one entry per tracked device, in map iteration order, each read from the per-pass
valuation.  The code builds `device_statuses` by pushing in iteration order and never
sorts it. -/
def bluezDeviceStatuses (nameOf : String → String) (connectedOf : String → Bool)
    (order : List String) : List DeviceStatus :=
  order.map (fun p => { name := nameOf p, connected := connectedOf p, path := p })

/-- `Status` of `src/source/dbus/upower.rs` (`device` is the model string, `percentage`
the f64 charge, modelled as `ℚ`). -/
structure UStatus where
  device : String
  percentage : ℚ
deriving DecidableEq

/-- One UPower snapshot (`src/source/dbus/upower.rs` lines 103-112): one entry per tracked
device read from the per-pass valuation, then `statuses.sort_by(...device.cmp...)`.
Rust's stable `sort_by` is modelled by insertion sort with the same key. -/
def upowerSnapshot (modelOf : String → String) (percentageOf : String → ℚ)
    (order : List String) : List UStatus :=
  List.insertionSort (fun s1 s2 => s1.device ≤ s2.device)
    (order.map (fun p => { device := modelOf p, percentage := percentageOf p }))

/-- `bluetooth_status` of the legacy draft `src/src/dbus.rs` (lines 39-52): reads
`(name, connected, path)` per device and sorts the connections by name. -/
def legacyBluetoothStatus (powered : Bool) (nameOf : String → String)
    (connectedOf : String → Bool) (order : List String) :
    Bool × List (String × Bool × String) :=
  (powered,
    List.insertionSort (fun c1 c2 => c1.1 ≤ c2.1)
      (order.map (fun p => (nameOf p, connectedOf p, p))))

instance : IsTotal UStatus (fun s1 s2 => s1.device ≤ s2.device) :=
  ⟨fun a b => le_total a.device b.device⟩

instance : IsTrans UStatus (fun s1 s2 => s1.device ≤ s2.device) :=
  ⟨fun _ _ _ h1 h2 => le_trans h1 h2⟩

instance : IsTotal (String × Bool × String) (fun c1 c2 => c1.1 ≤ c2.1) :=
  ⟨fun a b => le_total a.1 b.1⟩

instance : IsTrans (String × Bool × String) (fun c1 c2 => c1.1 ≤ c2.1) :=
  ⟨fun _ _ _ h1 h2 => le_trans h1 h2⟩

/-- C3 counterexample: a BlueZ snapshot whose device map iterates `/d1` (named "b") before
`/d2` (named "a") lists its entries unsorted — `statuses` in `src/source/dbus/bluez.rs`
never sorts the device list, so the claim fails on a reachable snapshot. -/
theorem bluez_snapshot_unsorted_counterexample :
    ¬ List.Sorted (fun s1 s2 : DeviceStatus => s1.name ≤ s2.name)
      (bluezDeviceStatuses (fun p => if p = "/d1" then "b" else "a") (fun _ => true)
        ["/d1", "/d2"]) := by
  intro h
  simp only [bluezDeviceStatuses, List.map_cons, List.map_nil] at h
  have h2 := List.rel_of_sorted_cons h _ (List.mem_cons_self _ _)
  have h3 : ("b" : String) ≤ "a" := by simpa using h2
  rw [String.le_iff_toList_le] at h3
  exact absurd h3 (by decide)

/-- C3 amended: UPower snapshots are sorted ascending by the model key, and the legacy
draft's `bluetooth_status` sorts by device name; the current BlueZ `statuses`, however,
emits its entries exactly as the single per-pass reads in map iteration order, without
sorting.  Each entry's values come from the one per-pass valuation by construction. -/
theorem snapshot_sorting_amended :
    (∀ (modelOf : String → String) (percentageOf : String → ℚ) (order : List String),
      List.Sorted (fun s1 s2 : UStatus => s1.device ≤ s2.device)
        (upowerSnapshot modelOf percentageOf order)) ∧
    (∀ (powered : Bool) (nameOf : String → String) (connectedOf : String → Bool)
        (order : List String),
      List.Sorted (fun c1 c2 : String × Bool × String => c1.1 ≤ c2.1)
        (legacyBluetoothStatus powered nameOf connectedOf order).2) ∧
    (∀ (nameOf : String → String) (connectedOf : String → Bool) (order : List String),
      bluezDeviceStatuses nameOf connectedOf order
        = order.map (fun p => { name := nameOf p, connected := connectedOf p, path := p })) := by
  refine ⟨fun _ _ _ => List.sorted_insertionSort _ _,
    fun _ _ _ _ => List.sorted_insertionSort _ _, fun _ _ _ => rfl⟩

/-- C7 counterexample: the path `/d` is enumerated and rejected by the admission filter on
the first pass (so it is not tracked), yet after a later membership pass in which its
admission property has changed it is tracked again and appears in the snapshot — rejected
ids sit outside `previous_paths`, so `statuses` re-evaluates the admission filter for them
on every pass. -/
theorem admission_refilter_counterexample :
    ("/d" ∈ ({"/d"} : Finset String)) ∧
    ((fun _ : String => false) "/d" = false) ∧
    syncPass (fun _ => false) ∅ {"/d"} = ∅ ∧
    "/d" ∈ syncPass (fun _ => true) (syncPass (fun _ => false) ∅ {"/d"}) {"/d"} ∧
    (bluezDeviceStatuses (fun _ => "N") (fun _ => true) ["/d"]).map
      DeviceStatus.path = ["/d"] := by
  refine ⟨by decide, rfl, by decide, by decide, rfl⟩

theorem syncRunV_not_mem (d : String) :
    ∀ (runs : List ((String → Bool) × Finset String)) (t : Finset String), d ∉ t →
      (∀ pass ∈ runs, pass.1 d = false) → d ∉ syncRunV t runs := by
  intro runs
  induction runs with
  | nil => intro t ht _; exact ht
  | cons pass rest ih =>
    intro t ht h
    refine ih _ ?_ (fun q hq => h q (List.mem_cons_of_mem pass hq))
    intro hm
    rcases mem_syncPass.mp hm with ⟨_, hd | ha⟩
    · exact ht hd
    · rw [h pass (List.mem_cons_self pass rest)] at ha
      exact Bool.false_ne_true ha

/-- C7 amended: a resource whose admission verdict is false at every membership pass of a
run is never tracked, hence has no entry in any snapshot of the run; the counterexample
shows this is tight — once the verdict changes (its remote `paired`/`present` property
flips), the next membership pass re-evaluates the filter and may adm the resource. -/
theorem admission_rejected_never_tracked (runs : List ((String → Bool) × Finset String))
    (d : String) (h : ∀ pass ∈ runs, pass.1 d = false) :
    d ∉ syncRunV ∅ runs ∧
    ∀ (nameOf : String → String) (connectedOf : String → Bool),
      ∀ s ∈ bluezDeviceStatuses nameOf connectedOf (syncRunV ∅ runs).toList, s.path ≠ d := by
  have hd : d ∉ syncRunV ∅ runs := syncRunV_not_mem d runs ∅ (Finset.not_mem_empty d) h
  refine ⟨hd, ?_⟩
  intro nameOf connectedOf s hs
  rcases List.mem_map.mp hs with ⟨p, hp, rfl⟩
  intro hpd
  have hpd' : p = d := hpd
  exact hd (hpd' ▸ Finset.mem_toList.mp hp)

/-- C7 witness: a concrete run in which `/d` is always rejected never tracks `/d`. -/
theorem admission_rejected_never_tracked_witness :
    "/d" ∉ syncRunV ∅ [((fun _ => false), ({"/d"} : Finset String))] :=
  (admission_rejected_never_tracked [((fun _ => false), {"/d"})] "/d" (by decide)).1

/-! ## Error Channel

`error` in `src/source/main.rs` creates `async_channel::bounded(1)`; `ErrorSender` (lines
204-216) wraps the sender and only ever uses `force_send`, which on a full capacity-1
channel replaces the queued message with the new one, returning the displaced message
(which the wrapper merely logs and drops) — it never waits.  The channel is the slot
`Option α`; the model is a total function, so a write can never block or suspend. -/

/-- `async_channel::Sender::force_send` on a capacity-1 channel: the new slot content and
the displaced message. -/
def force_send {α : Type} (slot : Option α) (e : α) : Option α × Option α :=
  (some e, slot)

/-- `ErrorSender::force_send`: sends, dropping the displaced error (`src/source/main.rs`
lines 210-215). -/
def errorSenderSend {α : Type} (slot : Option α) (e : α) : Option α :=
  (force_send slot e).1

/-- Writing a burst of errors in immediate succession with no intervening reads. -/
def sendAll {α : Type} (slot : Option α) (es : List α) : Option α :=
  es.foldl errorSenderSend slot

/-- C4: writing N ≥ 1 errors in immediate succession with no reads always succeeds — the
write is a total function, never waiting — and afterwards exactly the last written error is
the single value in the slot; all earlier ones were displaced and dropped. -/
theorem error_channel_overwrites (α : Type) (slot : Option α) (es : List α) (e : α) :
    sendAll slot (es ++ [e]) = some e := by
  simp [sendAll, List.foldl_append, errorSenderSend, force_send]

/-! ## Blocks and rendering (`src/source/main.rs`)

`Block` and `Blocks` mirror the structs of `src/source/main.rs` (lines 47-89); the Rust
field `instance` is called `inst` here.  Rust `f64` is modelled as `ℚ` and the
`{:.00}`-style numeric formatting is abstracted by `toString` of the rounded value; the
pango colour wrapper, the bar characters and the block texts otherwise follow the code. -/

/-- `Block` (lines 47-53), with `Block::new` defaults (lines 56-63). -/
structure Block where
  name : Option String
  inst : Option String
  full_text : String
  markup : String
deriving DecidableEq

def Block.new (full_text : String) : Block :=
  { name := none, inst := none, full_text := full_text, markup := "pango" }

/-- `Block::name` builder (lines 65-68). -/
def Block.withName (b : Block) (name : String) : Block :=
  { b with name := some name }

/-- `Block::instance` builder (lines 70-74). -/
def Block.withInstance (b : Block) (inst : String) : Block :=
  { b with inst := some inst }

/-- `Blocks` (lines 77-89): the Snapshot Store, one slot per source. -/
structure Blocks where
  bluez : List Block
  clock : Option Block
  cpu : Option Block
  download : Option Block
  error : Option Block
  temperature : Option Block
  upload : Option Block
  upower : List Block
  volume : Option Block
  wifi : Option Block
deriving DecidableEq

/-- `Click` (lines 165-170). -/
structure Click where
  name : String
  inst : Option String
  button : Int
deriving DecidableEq

/-- `BlockUpdate` (lines 122-128); `BlockUpdateError` is modelled as a `String`. -/
inductive BlockUpdate
  | click (c : Click)
  | error (e : String)
  | publish
  | rebuild
deriving DecidableEq

/-- `Color` (lines 29-33). -/
inductive Color
  | unspecified
  | orange
  | red
deriving DecidableEq

/-- `color` (lines 35-45): wraps the string in a pango span unless unspecified. -/
def color (s : String) : Color → String
  | Color.unspecified => s
  | Color.orange => "<span color=\"orange\">" ++ s ++ "</span>"
  | Color.red => "<span color=\"red\">" ++ s ++ "</span>"

def BARS0 : List Char := [' ', '▁', '▂', '▃', '▄', '▅', '▆', '▇', '█']

def BARS1 : List Char := ['▁', '▂', '▃', '▄', '▅', '▆', '▇', '█']

/-- `interpolate` (lines 11-14). -/
def interpolate (minimum maximum value : ℚ) : ℚ :=
  let v := max minimum (min maximum value)
  (v - minimum) / (maximum - minimum)

/-- `bars0` (lines 19-22); the `as usize` cast of the non-negative f64 is the floor. -/
def bars0 (minimum maximum value : ℚ) : Char :=
  BARS0.getD (Int.toNat ⌊interpolate minimum maximum value * ((BARS0.length : ℚ) - 1)⌋) ' '

/-- `bars1` (lines 24-27). -/
def bars1 (minimum maximum value : ℚ) : Char :=
  BARS1.getD (Int.toNat ⌊interpolate minimum maximum value * ((BARS1.length : ℚ) - 1)⌋) '▁'

/-- Abstraction of Rust `{:.00}` numeric formatting: the rounded value printed. -/
def fmtRounded (q : ℚ) : String :=
  toString (round q)

/-- The BlueZ block list (`bluez` in `src/source/main.rs`, lines 137-155): one powered-off
or no-device placeholder block, or one block per device in the order of the status's device
list. -/
def bluezBlocks (status : BluezStatus) : List Block :=
  if status.powered = false then
    [(Block.new (String.singleton (BARS0.getD 0 ' ') ++ " Bluetooth")).withName "bluez"]
  else if status.devices.isEmpty then
    [(Block.new (String.singleton (BARS0.getD (BARS0.length - 1) ' ') ++ " Bluetooth")).withName
      "bluez"]
  else
    status.devices.map (fun d =>
      let bar := if d.connected then BARS0.getD (BARS0.length - 1) ' ' else BARS0.getD 0 ' '
      ((Block.new (String.singleton bar ++ " " ++ d.name)).withName "bluez").withInstance
        d.path)

/-- One UPower block (`upower` in `src/source/main.rs`, lines 410-425). -/
def upowerBlock (s : UStatus) : Block :=
  let barColor : Color :=
    if s.percentage ≤ 10 then Color.red
    else if s.percentage ≤ 30 then Color.orange
    else Color.unspecified
  Block.new (color (String.singleton (bars1 0 100 s.percentage)) barColor ++ " "
    ++ fmtRounded s.percentage ++ "% " ++ s.device)

def upowerBlocks (statuses : List UStatus) : List Block :=
  statuses.map upowerBlock

/-- `volume::Status` (`src/source/volume.rs` lines 7-11); the u8 volume as `ℕ`. -/
inductive VolumeStatus
  | mute
  | volume (v : ℕ)
deriving DecidableEq

/-- The volume block (`volume` in `src/source/main.rs`, lines 441-456). -/
def volumeBlock (status : VolumeStatus) : Block :=
  (Block.new (String.singleton
      (bars0 0 100 (match status with | VolumeStatus.mute => 0 | VolumeStatus.volume v => (v : ℚ)))
    ++ " Volume")).withName "volume"

/-- The error block (`src/source/main.rs` line 239); the Debug formatting of the error is
abstracted by the error string itself. -/
def errorBlock (e : String) : Block :=
  Block.new (color e Color.red)

/-- The five prometheus block slots.  The pure rendering of the five metrics (`pad`,
`bars0`, colouring — lines 300-387) is abstracted: a successful poll carries the five
already-rendered optional blocks, which is what the closure writes into the store. -/
structure PromBlocks where
  cpu : Option Block
  download : Option Block
  temperature : Option Block
  upload : Option Block
  wifi : Option Block
deriving DecidableEq

/-- The published bar (the `Publish` arm of `main`, lines 569-603): the blocks chained in
the fixed order error, upload, download, wifi, temperature, cpu, upower, volume, bluez,
clock; empty (`None`) slots contribute nothing. -/
def renderBar (b : Blocks) : List Block :=
  b.error.toList ++ b.upload.toList ++ b.download.toList ++ b.wifi.toList ++
    b.temperature.toList ++ b.cpu.toList ++ b.upower ++ b.volume.toList ++ b.bluez ++
    b.clock.toList

/-! ## The Stream Supervisor (`main` in `src/source/main.rs`, lines 467-626)

The five fallible sources are indexed by `Src` in the order of the `fallible_futures`
array.  `SlotState` tracks, per source, which stream sits in its `fallible_streams` slot:
`alive` (the real stream), `ended` (the real stream has yielded its terminal error and
will next return `None` — the bus/timer adapters are `try_stream!`s that end right after
an error), `quarantined` (the inert `pending()` placeholder was swapped in; it never
produces).  `gen` counts how often the source's stream has been built from scratch.
`errSlot` is the error channel, `ticks` the error stream's tick counter. -/

inductive Src
  | bluez
  | clicks
  | prometheus
  | upower
  | volume
deriving DecidableEq

inductive SlotState
  | alive
  | ended
  | quarantined
deriving DecidableEq

structure SupState where
  blocks : Blocks
  failed : Src → Bool
  slot : Src → SlotState
  gen : Src → ℕ
  errSlot : Option String
  ticks : ℕ

/-- Events of the error stream (`error` in `src/source/main.rs`, lines 221-225). -/
inductive ErrEvent
  | receive (e : String)
  | tick

/-- One step of the error stream (lines 232-252): new tick count, new error block slot,
and the update it yields, if any. -/
def errorStreamStep (ticks : ℕ) (error : Option Block) :
    ErrEvent → ℕ × Option Block × Option BlockUpdate
  | ErrEvent.receive e => (0, some (errorBlock e), some BlockUpdate.publish)
  | ErrEvent.tick =>
    let t := ticks + (if error.isSome then 1 else 0)
    if t ≥ 10 then (0, none, some BlockUpdate.rebuild) else (t, error, none)

/-- The `Rebuild` arm of `main` (lines 604-614): every source whose failed flag is set gets
a freshly built stream swapped into its slot and its flag cleared; everything else is left
alone. -/
def rebuildQuarantined (st : SupState) : SupState :=
  { st with
    failed := fun s => if st.failed s then false else st.failed s,
    slot := fun s => if st.failed s then SlotState.alive else st.slot s,
    gen := fun s => if st.failed s then st.gen s + 1 else st.gen s }

/-- The `None` arm of `main` (lines 615-622): the ended stream's slot gets the inert
placeholder and the source is marked failed. -/
def quarantine (st : SupState) (s : Src) : SupState :=
  { st with
    failed := Function.update st.failed s true,
    slot := Function.update st.slot s SlotState.quarantined }

/-- `error_sender.force_send` as used by the supervisor (the receiver never closes). -/
def forceSendErr (st : SupState) (e : String) : SupState :=
  { st with errSlot := errorSenderSend st.errSlot e }

/-- The supervisor's `match` on a yielded `BlockUpdate` (minus the click dispatch, whose
external action outcome is part of the loop input): `Publish` writes the rendered bar to
stdout, `Error` force-sends into the error channel, `Rebuild` rebuilds the quarantined
sources.  The second component is the list of bars written to stdout by the step. -/
def applyUpdate (st : SupState) : BlockUpdate → SupState × List (List Block)
  | BlockUpdate.publish => (st, [renderBar st.blocks])
  | BlockUpdate.error e => (forceSendErr st e, [])
  | BlockUpdate.rebuild => (rebuildQuarantined st, [])
  | BlockUpdate.click _ => (st, [])

/-- An item of the clicks stream together with the outcome of the control action the click
arm would dispatch (the action runs against the external system). -/
inductive ClicksItem
  | clickEv (c : Click) (actionResult : Except String Unit)
  | decodeErr (e : String)

/-- One loop iteration's input: which stream the `select_all` woke up with, and the raw
item it produced (`none` is end of stream).  The bus/timer items carry the data their
closures map into blocks. -/
inductive LoopInput
  | fromBluez (item : Option (Except String BluezStatus))
  | fromClicks (item : Option ClicksItem)
  | fromProm (item : Option (Except String PromBlocks))
  | fromUpower (item : Option (Except String (List UStatus)))
  | fromVolume (item : Option (Except String VolumeStatus))
  | fromClock (s : String)
  | errReceive
  | errTick

/-- Whether the click arm dispatches a control action (lines 523-561): bluez button 1, or
volume buttons 1, 4, 5; everything else is only logged. -/
def clickDispatches (c : Click) : Bool :=
  (c.name == "bluez" && c.button == 1) ||
    (c.name == "volume" && (c.button == 1 || c.button == 4 || c.button == 5))

def endSlot (st : SupState) (s : Src) : SupState :=
  { st with slot := Function.update st.slot s SlotState.ended }

/-- One iteration of the supervisor loop: the woken stream's closure first mutates the
Snapshot Store and produces its `BlockUpdate` (for the fallible adapters: rendered blocks
on `Ok`, the cleared/empty value on `Err` — e.g. lines 156-159 for bluez), then the
supervisor's `match` handles the update; a terminal error also marks the `try_stream!` as
ended, and `None` quarantines the source. -/
def loopStep (st : SupState) : LoopInput → SupState × List (List Block)
  | LoopInput.fromBluez (some item) =>
    let st1 :=
      match item with
      | Except.ok status => { st with blocks := { st.blocks with bluez := bluezBlocks status } }
      | Except.error _ => endSlot { st with blocks := { st.blocks with bluez := [] } } Src.bluez
    match item with
    | Except.ok _ => applyUpdate st1 BlockUpdate.publish
    | Except.error e => applyUpdate st1 (BlockUpdate.error e)
  | LoopInput.fromBluez none => (quarantine st Src.bluez, [])
  | LoopInput.fromUpower (some item) =>
    let st1 :=
      match item with
      | Except.ok statuses =>
        { st with blocks := { st.blocks with upower := upowerBlocks statuses } }
      | Except.error _ => endSlot { st with blocks := { st.blocks with upower := [] } } Src.upower
    match item with
    | Except.ok _ => applyUpdate st1 BlockUpdate.publish
    | Except.error e => applyUpdate st1 (BlockUpdate.error e)
  | LoopInput.fromUpower none => (quarantine st Src.upower, [])
  | LoopInput.fromVolume (some item) =>
    let st1 :=
      match item with
      | Except.ok status =>
        { st with blocks := { st.blocks with volume := some (volumeBlock status) } }
      | Except.error _ => endSlot { st with blocks := { st.blocks with volume := none } } Src.volume
    match item with
    | Except.ok _ => applyUpdate st1 BlockUpdate.publish
    | Except.error e => applyUpdate st1 (BlockUpdate.error e)
  | LoopInput.fromVolume none => (quarantine st Src.volume, [])
  | LoopInput.fromProm (some item) =>
    let st1 :=
      match item with
      | Except.ok pb =>
        { st with blocks :=
          { st.blocks with
            cpu := pb.cpu
            download := pb.download
            temperature := pb.temperature
            upload := pb.upload
            wifi := pb.wifi } }
      | Except.error _ =>
        endSlot
          { st with blocks :=
            { st.blocks with
              cpu := none
              download := none
              temperature := none
              upload := none
              wifi := none } }
          Src.prometheus
    match item with
    | Except.ok _ => applyUpdate st1 BlockUpdate.publish
    | Except.error e => applyUpdate st1 (BlockUpdate.error e)
  | LoopInput.fromProm none => (quarantine st Src.prometheus, [])
  | LoopInput.fromClicks (some (ClicksItem.decodeErr e)) =>
    applyUpdate st (BlockUpdate.error e)
  | LoopInput.fromClicks (some (ClicksItem.clickEv c result)) =>
    if clickDispatches c then
      match result with
      | Except.ok _ => (st, [])
      | Except.error e => (forceSendErr st e, [])
    else (st, [])
  | LoopInput.fromClicks none => (quarantine st Src.clicks, [])
  | LoopInput.fromClock s =>
    applyUpdate { st with blocks := { st.blocks with clock := some (Block.new s) } }
      BlockUpdate.publish
  | LoopInput.errReceive =>
    match st.errSlot with
    | none => (st, [])
    | some e =>
      let r := errorStreamStep st.ticks st.blocks.error (ErrEvent.receive e)
      let st1 :=
        { st with
          errSlot := none
          ticks := r.1
          blocks := { st.blocks with error := r.2.1 } }
      match r.2.2 with
      | some u => applyUpdate st1 u
      | none => (st1, [])
  | LoopInput.errTick =>
    let r := errorStreamStep st.ticks st.blocks.error ErrEvent.tick
    let st1 := { st with ticks := r.1, blocks := { st.blocks with error := r.2.1 } }
    match r.2.2 with
    | some u => applyUpdate st1 u
    | none => (st1, [])

/-- A run of loop iterations: final state and the concatenated stdout bars. -/
def runLoop (st : SupState) : List LoopInput → SupState × List (List Block)
  | [] => (st, [])
  | i :: is =>
    let r := loopStep st i
    let rest := runLoop r.1 is
    (rest.1, r.2 ++ rest.2)

/-- Which inputs a state admits: a live stream produces items, an ended `try_stream!`
produces only its final `None`, the clicks stream produces items (or EOF) while live, a
quarantined source's placeholder produces nothing, and the error stream only receives when
the channel slot is full. -/
def canStep (st : SupState) : LoopInput → Bool
  | LoopInput.fromBluez (some _) => decide (st.slot Src.bluez = SlotState.alive)
  | LoopInput.fromBluez none => decide (st.slot Src.bluez = SlotState.ended)
  | LoopInput.fromUpower (some _) => decide (st.slot Src.upower = SlotState.alive)
  | LoopInput.fromUpower none => decide (st.slot Src.upower = SlotState.ended)
  | LoopInput.fromVolume (some _) => decide (st.slot Src.volume = SlotState.alive)
  | LoopInput.fromVolume none => decide (st.slot Src.volume = SlotState.ended)
  | LoopInput.fromProm (some _) => decide (st.slot Src.prometheus = SlotState.alive)
  | LoopInput.fromProm none => decide (st.slot Src.prometheus = SlotState.ended)
  | LoopInput.fromClicks (some _) => decide (st.slot Src.clicks = SlotState.alive)
  | LoopInput.fromClicks none => decide (st.slot Src.clicks = SlotState.alive)
  | LoopInput.fromClock _ => true
  | LoopInput.errReceive => st.errSlot.isSome
  | LoopInput.errTick => true

def validRun (st : SupState) : List LoopInput → Bool
  | [] => true
  | i :: is => canStep st i && validRun (loopStep st i).1 is

/-- Whether this input makes the error stream's dwell expire, i.e. whether the step runs
the supervisor's `Rebuild` arm. -/
def triggersRebuild (st : SupState) : LoopInput → Bool
  | LoopInput.errTick => (errorStreamStep st.ticks st.blocks.error ErrEvent.tick).2.2.isSome
  | _ => false

def rebuildFree (st : SupState) : List LoopInput → Bool
  | [] => true
  | i :: is => !triggersRebuild st i && rebuildFree (loopStep st i).1 is

/-- The Snapshot Store entry owned by a fallible source (the clicks stream owns none). -/
def entryOf (s : Src) (b : Blocks) : List Block :=
  match s with
  | Src.bluez => b.bluez
  | Src.clicks => []
  | Src.prometheus =>
    b.cpu.toList ++ b.download.toList ++ b.temperature.toList ++ b.upload.toList ++
      b.wifi.toList
  | Src.upower => b.upower
  | Src.volume => b.volume.toList

/-- The loop input in which source `s` yields its terminal error `e`. -/
def errItemInput (s : Src) (e : String) : LoopInput :=
  match s with
  | Src.bluez => LoopInput.fromBluez (some (Except.error e))
  | Src.clicks => LoopInput.fromClicks (some (ClicksItem.decodeErr e))
  | Src.prometheus => LoopInput.fromProm (some (Except.error e))
  | Src.upower => LoopInput.fromUpower (some (Except.error e))
  | Src.volume => LoopInput.fromVolume (some (Except.error e))

/-- Whether the input is an item (a produced event, as opposed to end of stream) of source
`s`. -/
def isSomeItemFrom (s : Src) : LoopInput → Bool
  | LoopInput.fromBluez (some _) => decide (s = Src.bluez)
  | LoopInput.fromClicks (some _) => decide (s = Src.clicks)
  | LoopInput.fromProm (some _) => decide (s = Src.prometheus)
  | LoopInput.fromUpower (some _) => decide (s = Src.upower)
  | LoopInput.fromVolume (some _) => decide (s = Src.volume)
  | _ => false

/-- C5: the `Rebuild` arm reconstructs from scratch exactly the sources whose failed flag
is set — their slot gets the freshly built stream (generation bumped) and their flag is
cleared — while a non-quarantined source keeps its stream slot and generation untouched,
and the Snapshot Store, the error channel slot and the tick counter are not touched at
all. -/
theorem rebuild_exactly_quarantined (st : SupState) (s : Src) :
    (rebuildQuarantined st).failed s = false ∧
    (rebuildQuarantined st).slot s = (if st.failed s then SlotState.alive else st.slot s) ∧
    (rebuildQuarantined st).gen s = (if st.failed s then st.gen s + 1 else st.gen s) ∧
    (rebuildQuarantined st).blocks = st.blocks ∧
    (rebuildQuarantined st).errSlot = st.errSlot ∧
    (rebuildQuarantined st).ticks = st.ticks := by
  refine ⟨?_, rfl, rfl, rfl, rfl, rfl⟩
  show (if st.failed s then false else st.failed s) = false
  cases h : st.failed s <;> simp [h]

theorem applyUpdate_out (st : SupState) (u : BlockUpdate) (bar : List Block)
    (h : bar ∈ (applyUpdate st u).2) : bar = renderBar (applyUpdate st u).1.blocks := by
  cases u with
  | publish => simpa [applyUpdate] using h
  | error e => simp [applyUpdate] at h
  | rebuild => simp [applyUpdate] at h
  | click c => simp [applyUpdate] at h

theorem loopStep_out (st : SupState) (i : LoopInput) (bar : List Block)
    (h : bar ∈ (loopStep st i).2) : bar = renderBar (loopStep st i).1.blocks := by
  cases i with
  | fromBluez item =>
    rcases item with _ | item
    · simp [loopStep] at h
    · rcases item with status | e
      · exact applyUpdate_out _ _ _ h
      · exact applyUpdate_out _ _ _ h
  | fromUpower item =>
    rcases item with _ | item
    · simp [loopStep] at h
    · rcases item with statuses | e
      · exact applyUpdate_out _ _ _ h
      · exact applyUpdate_out _ _ _ h
  | fromVolume item =>
    rcases item with _ | item
    · simp [loopStep] at h
    · rcases item with status | e
      · exact applyUpdate_out _ _ _ h
      · exact applyUpdate_out _ _ _ h
  | fromProm item =>
    rcases item with _ | item
    · simp [loopStep] at h
    · rcases item with pb | e
      · exact applyUpdate_out _ _ _ h
      · exact applyUpdate_out _ _ _ h
  | fromClicks item =>
    rcases item with _ | item
    · simp [loopStep] at h
    · rcases item with ⟨c, result⟩ | e
      · rcases result with u | e <;> by_cases hc : clickDispatches c <;>
          simp [loopStep, hc] at h
      · exact applyUpdate_out _ _ _ h
  | fromClock s => exact applyUpdate_out _ _ _ h
  | errReceive =>
    rcases herr : st.errSlot with _ | e
    · simp [loopStep, herr] at h
    · simp only [loopStep] at h ⊢
      rw [herr] at h ⊢
      exact applyUpdate_out _ _ _ h
  | errTick =>
    rcases hr : (errorStreamStep st.ticks st.blocks.error ErrEvent.tick).2.2 with _ | u
    · simp [loopStep, hr] at h
    · simp only [loopStep] at h ⊢
      rw [hr] at h ⊢
      exact applyUpdate_out _ _ _ h

/-- C10: whichever stream triggered the step, every bar the step writes to stdout is the
full replacement rendering of the current Snapshot Store; and that rendering concatenates
the component slots in the fixed order error, upload, download, wifi, temperature, cpu,
upower, volume, bluez, clock — an empty slot is simply absent, and every block of the bar
comes from one of those ten slots. -/
theorem publish_full_replacement (st : SupState) (i : LoopInput) (bar : List Block)
    (hbar : bar ∈ (loopStep st i).2) :
    bar = renderBar (loopStep st i).1.blocks ∧
    (∀ b : Blocks, renderBar b =
      b.error.toList ++ b.upload.toList ++ b.download.toList ++ b.wifi.toList ++
        b.temperature.toList ++ b.cpu.toList ++ b.upower ++ b.volume.toList ++ b.bluez ++
        b.clock.toList) ∧
    (∀ (b : Blocks) (x : Block), x ∈ renderBar b ↔
      x ∈ b.error.toList ∨ x ∈ b.upload.toList ∨ x ∈ b.download.toList ∨
        x ∈ b.wifi.toList ∨ x ∈ b.temperature.toList ∨ x ∈ b.cpu.toList ∨ x ∈ b.upower ∨
        x ∈ b.volume.toList ∨ x ∈ b.bluez ∨ x ∈ b.clock.toList) := by
  refine ⟨loopStep_out st i bar hbar, fun b => rfl, fun b x => ?_⟩
  simp [renderBar, List.mem_append, or_assoc]

theorem entryOf_error_update (s : Src) (b : Blocks) (x : Option Block) :
    entryOf s { b with error := x } = entryOf s b := by
  cases s <;> rfl

theorem entryOf_clock_update (s : Src) (b : Blocks) (x : Option Block) :
    entryOf s { b with clock := x } = entryOf s b := by
  cases s <;> rfl

theorem loopStep_preserves_quiescent (s : Src) (st : SupState) (i : LoopInput)
    (hs : s ≠ Src.clicks) (hslot : st.slot s ≠ SlotState.alive)
    (hentry : entryOf s st.blocks = []) (hcan : canStep st i = true)
    (hnr : triggersRebuild st i = false) :
    (loopStep st i).1.slot s ≠ SlotState.alive ∧ entryOf s (loopStep st i).1.blocks = [] ∧
      isSomeItemFrom s i = false := by
  cases i with
  | fromBluez item =>
    rcases item with _ | item
    · cases s <;>
        simp_all [canStep, loopStep, quarantine, entryOf, isSomeItemFrom, Function.update]
    · rcases item with status | e <;> cases s <;>
        simp_all [canStep, loopStep, applyUpdate, forceSendErr, endSlot, entryOf,
          isSomeItemFrom, Function.update]
  | fromUpower item =>
    rcases item with _ | item
    · cases s <;>
        simp_all [canStep, loopStep, quarantine, entryOf, isSomeItemFrom, Function.update]
    · rcases item with statuses | e <;> cases s <;>
        simp_all [canStep, loopStep, applyUpdate, forceSendErr, endSlot, entryOf,
          isSomeItemFrom, Function.update]
  | fromVolume item =>
    rcases item with _ | item
    · cases s <;>
        simp_all [canStep, loopStep, quarantine, entryOf, isSomeItemFrom, Function.update]
    · rcases item with status | e <;> cases s <;>
        simp_all [canStep, loopStep, applyUpdate, forceSendErr, endSlot, entryOf,
          isSomeItemFrom, Function.update]
  | fromProm item =>
    rcases item with _ | item
    · cases s <;>
        simp_all [canStep, loopStep, quarantine, entryOf, isSomeItemFrom, Function.update]
    · rcases item with pb | e <;> cases s <;>
        simp_all [canStep, loopStep, applyUpdate, forceSendErr, endSlot, entryOf,
          isSomeItemFrom, Function.update]
  | fromClicks item =>
    rcases item with _ | item
    · cases s <;>
        simp_all [canStep, loopStep, quarantine, entryOf, isSomeItemFrom, Function.update]
    · rcases item with ⟨c, result⟩ | e
      · rcases result with u | e <;> by_cases hc : clickDispatches c <;> cases s <;>
          simp_all [loopStep, forceSendErr, entryOf, isSomeItemFrom]
      · cases s <;>
          simp_all [loopStep, applyUpdate, forceSendErr, entryOf, isSomeItemFrom]
  | fromClock str =>
    refine ⟨?_, ?_, rfl⟩
    · simpa [loopStep, applyUpdate] using hslot
    · simpa [loopStep, applyUpdate, entryOf_clock_update] using hentry
  | errReceive =>
    rcases herr : st.errSlot with _ | e
    · simpa [loopStep, herr, isSomeItemFrom] using ⟨hslot, hentry⟩
    · refine ⟨?_, ?_, rfl⟩
      · simp only [loopStep]
        rw [herr]
        simpa [applyUpdate, errorStreamStep] using hslot
      · simp only [loopStep]
        rw [herr]
        simpa [applyUpdate, errorStreamStep, entryOf_error_update] using hentry
  | errTick =>
    have hn : (errorStreamStep st.ticks st.blocks.error ErrEvent.tick).2.2 = none := by
      rcases h' : (errorStreamStep st.ticks st.blocks.error ErrEvent.tick).2.2 with _ | u
      · rfl
      · simp [triggersRebuild, h'] at hnr
    refine ⟨?_, ?_, rfl⟩
    · simp only [loopStep]
      rw [hn]
      simpa using hslot
    · simp only [loopStep]
      rw [hn]
      simpa [entryOf_error_update] using hentry

theorem runLoop_quiescent (s : Src) (hs : s ≠ Src.clicks) :
    ∀ (inputs : List LoopInput) (st : SupState),
      st.slot s ≠ SlotState.alive → entryOf s st.blocks = [] →
      validRun st inputs = true → rebuildFree st inputs = true →
      entryOf s (runLoop st inputs).1.blocks = [] ∧
        (runLoop st inputs).1.slot s ≠ SlotState.alive ∧
        ∀ i ∈ inputs, isSomeItemFrom s i = false := by
  intro inputs
  induction inputs with
  | nil =>
    intro st h1 h2 _ _
    exact ⟨h2, h1, by simp⟩
  | cons i is ih =>
    intro st h1 h2 hv hr
    rw [validRun, Bool.and_eq_true] at hv
    rw [rebuildFree, Bool.and_eq_true] at hr
    have hnr : triggersRebuild st i = false := by
      have := hr.1
      simpa using this
    have step := loopStep_preserves_quiescent s st i hs h1 h2 hv.1 hnr
    have rest := ih (loopStep st i).1 step.1 step.2.1 hv.2 hr.2
    refine ⟨?_, ?_, ?_⟩
    · simpa [runLoop] using rest.1
    · simpa [runLoop] using rest.2.1
    · intro j hj
      rcases List.mem_cons.mp hj with rfl | hj
      · exact step.2.2
      · exact rest.2.2 j hj

/-- C2 amended: when a fallible snapshot-contributing source (BlueZ, UPower, volume,
prometheus — the clicks stream owns no snapshot entry) yields its terminal error, its
`try_stream!` ends and is swapped for the inert placeholder, so in every valid
continuation without a rebuild pulse the source produces no further items — but its
Snapshot Store entry is not left untouched: the adapter clears it to its empty value at
the very moment the error event is produced, and it then stays cleared until the rebuild
pulse. -/
theorem source_error_clears_then_quiescent (s : Src) (st : SupState) (e : String)
    (inputs : List LoopInput) (hs : s ≠ Src.clicks) (halive : st.slot s = SlotState.alive) :
    entryOf s (loopStep st (errItemInput s e)).1.blocks = [] ∧
    (loopStep st (errItemInput s e)).1.slot s = SlotState.ended ∧
    (validRun (loopStep st (errItemInput s e)).1 inputs = true →
      rebuildFree (loopStep st (errItemInput s e)).1 inputs = true →
      entryOf s (runLoop (loopStep st (errItemInput s e)).1 inputs).1.blocks = [] ∧
        ∀ i ∈ inputs, isSomeItemFrom s i = false) := by
  have hcl : entryOf s (loopStep st (errItemInput s e)).1.blocks = [] := by
    cases s <;>
      simp_all [errItemInput, loopStep, applyUpdate, forceSendErr, endSlot, entryOf]
  have hend : (loopStep st (errItemInput s e)).1.slot s = SlotState.ended := by
    cases s <;>
      simp_all [errItemInput, loopStep, applyUpdate, forceSendErr, endSlot,
        Function.update]
  refine ⟨hcl, hend, fun hv hr => ?_⟩
  have h := runLoop_quiescent s hs inputs (loopStep st (errItemInput s e)).1
    (by rw [hend]; simp) hcl hv hr
  exact ⟨h.1, h.2.2⟩

/-- The Snapshot Store and supervisor state used by the concrete scenarios: one previously
published BlueZ block, everything else empty, all sources live. -/
def blocksW : Blocks :=
  { bluez := [Block.new "bt"]
    clock := none
    cpu := none
    download := none
    error := none
    temperature := none
    upload := none
    upower := []
    volume := none
    wifi := none }

def stW : SupState :=
  { blocks := blocksW
    failed := fun _ => false
    slot := fun _ => SlotState.alive
    gen := fun _ => 0
    errSlot := none
    ticks := 0 }

/-- C2 counterexample: at the very step in which the BlueZ adapter yields its error event,
its previously published Snapshot Store entry is overwritten with the empty list
(`src/source/main.rs` lines 157-159) — it is cleared, not left untouched. -/
theorem source_error_clears_entry_counterexample :
    stW.blocks.bluez = [Block.new "bt"] ∧
    (loopStep stW (LoopInput.fromBluez (some (Except.error "bus error")))).1.blocks.bluez
      = [] :=
  ⟨rfl, rfl⟩

/-- C2 witness: a concrete quarantined continuation after the BlueZ error keeps the entry
cleared. -/
theorem source_error_quiescent_witness :
    entryOf Src.bluez
      (runLoop (loopStep stW (errItemInput Src.bluez "boom")).1
        [LoopInput.fromBluez none, LoopInput.errTick]).1.blocks = [] :=
  ((source_error_clears_then_quiescent Src.bluez stW "boom"
      [LoopInput.fromBluez none, LoopInput.errTick] (by decide) rfl).2.2
    (by decide) (by decide)).1

theorem runLoop_append (st : SupState) (l1 l2 : List LoopInput) :
    runLoop st (l1 ++ l2)
      = ((runLoop (runLoop st l1).1 l2).1,
          (runLoop st l1).2 ++ (runLoop (runLoop st l1).1 l2).2) := by
  induction l1 generalizing st with
  | nil => simp [runLoop]
  | cons i is ih => simp [runLoop, ih, List.append_assoc]

theorem errTick_step_small (st : SupState) (blk : Block) (hb : st.blocks.error = some blk)
    (hlt : st.ticks + 1 < 10) :
    loopStep st LoopInput.errTick = ({ st with ticks := st.ticks + 1 }, []) := by
  have h1 : (if st.blocks.error.isSome then 1 else 0) = 1 := by rw [hb]; rfl
  simp only [loopStep, errorStreamStep]
  rw [h1, if_neg (by omega : ¬ st.ticks + 1 ≥ 10)]

theorem runLoop_replicate_ticks (n : ℕ) :
    ∀ (st : SupState) (blk : Block), st.blocks.error = some blk → st.ticks + n ≤ 9 →
      runLoop st (List.replicate n LoopInput.errTick)
        = ({ st with ticks := st.ticks + n }, []) := by
  induction n with
  | zero =>
    intro st blk hb h
    simp [runLoop, List.replicate]
  | succ n ih =>
    intro st blk hb h
    rw [List.replicate_succ]
    have hstep := errTick_step_small st blk hb (by omega)
    have hih := ih { st with ticks := st.ticks + 1 } blk hb
      (by show st.ticks + 1 + n ≤ 9; omega)
    simp only [runLoop, hstep, hih, List.nil_append]
    have : st.ticks + 1 + n = st.ticks + (n + 1) := by omega
    rw [this]

theorem errTick_step_fire (st : SupState) (blk : Block) (hb : st.blocks.error = some blk)
    (h9 : st.ticks = 9) :
    loopStep st LoopInput.errTick =
      (rebuildQuarantined
        { st with ticks := 0, blocks := { st.blocks with error := none } }, []) := by
  have h1 : (if st.blocks.error.isSome then 1 else 0) = 1 := by rw [hb]; rfl
  simp only [loopStep, errorStreamStep, applyUpdate]
  rw [h1, h9, if_pos (by omega : 9 + 1 ≥ 10)]

/-- C9 amended: with an error block displayed and the tick counter at zero, ten
consecutive timer ticks with no new error clear the error block and run the rebuild of the
quarantined sources, publishing nothing; the signal the error stream emits at the dwell
expiry is `BlockUpdate.rebuild` — the very value the supervisor's `match` treats as the
adapter-rebuild pulse, not a distinct display-refresh signal — and receiving a new error
resets the tick counter to zero. -/
theorem error_dwell_clears_and_rebuilds (st : SupState) (blk : Block)
    (hb : st.blocks.error = some blk) (h0 : st.ticks = 0) :
    (runLoop st (List.replicate 10 LoopInput.errTick)).1
      = rebuildQuarantined
          { st with ticks := 0, blocks := { st.blocks with error := none } } ∧
    (runLoop st (List.replicate 10 LoopInput.errTick)).1.blocks.error = none ∧
    (runLoop st (List.replicate 10 LoopInput.errTick)).2 = [] ∧
    (errorStreamStep 9 st.blocks.error ErrEvent.tick).2.2 = some BlockUpdate.rebuild ∧
    (∀ (ticks : ℕ) (e : String),
      (errorStreamStep ticks st.blocks.error (ErrEvent.receive e)).1 = 0) := by
  have hfinal : runLoop st (List.replicate 10 LoopInput.errTick)
      = (rebuildQuarantined
          { st with ticks := 0, blocks := { st.blocks with error := none } }, []) := by
    have hrep : List.replicate 10 LoopInput.errTick
        = List.replicate 9 LoopInput.errTick ++ [LoopInput.errTick] := rfl
    rw [hrep, runLoop_append, runLoop_replicate_ticks 9 st blk hb (by omega)]
    have hfire := errTick_step_fire { st with ticks := st.ticks + 9 } blk hb
      (by show st.ticks + 9 = 9; omega)
    simp only [runLoop, hfire, List.append_nil, List.nil_append]
  refine ⟨by rw [hfinal], ?_, by rw [hfinal], by rw [hb]; rfl, fun ticks e => rfl⟩
  rw [hfinal]
  rfl

def blocksW9 : Blocks :=
  { blocksW with error := some (errorBlock "E"), bluez := [] }

def stW9 : SupState :=
  { blocks := blocksW9
    failed := fun _ => false
    slot := fun _ => SlotState.alive
    gen := fun _ => 0
    errSlot := none
    ticks := 0 }

/-- C9 witness: after ten ticks with an error displayed and no new error, the error block
is cleared. -/
theorem error_dwell_witness :
    (runLoop stW9 (List.replicate 10 LoopInput.errTick)).1.blocks.error = none :=
  (error_dwell_clears_and_rebuilds stW9 (errorBlock "E") rfl rfl).2.1

def stW9c : SupState :=
  { blocks := blocksW9
    failed := fun s => decide (s = Src.bluez)
    slot := fun s => if s = Src.bluez then SlotState.quarantined else SlotState.alive
    gen := fun _ => 0
    errSlot := none
    ticks := 9 }

/-- C9 counterexample: the signal emitted at the dwell expiry is `BlockUpdate.rebuild`,
the very event the supervisor's `match` treats as the adapter-rebuild pulse — processing
it swaps the quarantined BlueZ stream back in (generation bumped) and publishes nothing —
so it is neither distinct from the adapter-rebuild pulse nor a display refresh. -/
theorem error_dwell_signal_counterexample :
    (errorStreamStep stW9c.ticks stW9c.blocks.error ErrEvent.tick).2.2
      = some BlockUpdate.rebuild ∧
    (loopStep stW9c LoopInput.errTick).2 = [] ∧
    (loopStep stW9c LoopInput.errTick).1.slot Src.bluez = SlotState.alive ∧
    (loopStep stW9c LoopInput.errTick).1.gen Src.bluez = stW9c.gen Src.bluez + 1 :=
  ⟨rfl, rfl, rfl, rfl⟩

/-- C10 witness: a clock publish from the concrete state emits exactly the full
replacement bar. -/
theorem publish_full_replacement_witness :
    [Block.new "bt", Block.new "now"]
      = renderBar (loopStep stW (LoopInput.fromClock "now")).1.blocks :=
  (publish_full_replacement stW (LoopInput.fromClock "now")
    [Block.new "bt", Block.new "now"] (by decide)).1

/-! ## The clicks adapter (`clicks` in `src/source/main.rs`, lines 172-192)

The adapter reads stdin line by line and `filter_map`s each line: the opening `[` of
sway's infinite array is skipped, any other line is stripped of a leading `,` and decoded;
a decoded click becomes a `Click` update, a decode failure becomes an `Error` update, and
an IO error on the line itself also becomes an `Error` update.  `filter_map` never
terminates the stream: decoding continues with the next line.  JSON decoding
(`serde_json::from_str`) is external and is a parameter `decode`. -/

def stripLeadingComma (line : String) : String :=
  match line.toList with
  | ',' :: rest => String.mk rest
  | _ => line

def clicksLineUpdate (decode : String → Except String Click) (line : Except String String) :
    Option BlockUpdate :=
  match line with
  | Except.ok l =>
    if l = "[" then none
    else
      match decode (stripLeadingComma l) with
      | Except.ok c => some (BlockUpdate.click c)
      | Except.error e => some (BlockUpdate.error e)
  | Except.error e => some (BlockUpdate.error e)

/-- The sequence of updates the clicks adapter produces for a sequence of stdin lines. -/
def clicksStream (decode : String → Except String Click) (lines : List (Except String String)) :
    List BlockUpdate :=
  lines.filterMap (clicksLineUpdate decode)

/-- A concrete decoder: exactly one well-formed record, everything else a decode error. -/
def decodeW : String → Except String Click :=
  fun l =>
    if l = "click-volume-1" then Except.ok { name := "volume", inst := none, button := 1 }
    else Except.error "invalid JSON"

/-- C8: the clicks adapter does not terminate at the first decode error.  On the stdin
lines `[`, a structurally invalid record, then a valid record, it yields the decode
`Error` update and then keeps producing — the valid record still becomes a `Click` event
after the error.  This contradicts the claim, the specification ("a structurally invalid
record is a terminal decode error") and the code's own comment at
`src/source/main.rs` line 565 ("A fallible stream will end right after an error"). -/
theorem clicks_continue_after_decode_error :
    clicksStream decodeW
        [Except.ok "[", Except.ok "not-json", Except.ok "click-volume-1"]
      = [BlockUpdate.error "invalid JSON",
          BlockUpdate.click { name := "volume", inst := none, button := 1 }] := by
  rfl
